import Mathlib

/-!
Shallow embedding of the tetris repository (TypeScript) — board, pieces,
scoring and the Game session class — together with theorems checking the
natural-language specification against this code.

Source files embedded: src/types.ts, src/board.ts, src/pieces.ts (found
inside score.ts after the separator), src/score.ts, and the Game class
(src/game.ts, present in the unnamed part of the repository).

Modelling conventions:
  * JS numbers holding cell coordinates are embedded as Int (kicks are
    negative), counters as Nat, and millisecond amounts as Int (every
    constant the code compares against is integral).
  * `Cell = null | PieceType` becomes `Option PieceType`.
  * The mutable Board / ScoreSystem / Game classes become records with
    explicit state passing; methods returning a boolean become
    `Bool × Game`.
  * The random BagSystem is embedded as an infinite supply
    `pieceQueue : Nat → PieceType` with a cursor, so every theorem is
    universally quantified over the RNG outcomes.
-/

namespace Tetris

/-- PieceType from types.ts: 'I' | 'O' | 'T' | 'S' | 'Z' | 'J' | 'L'. -/
inductive PieceType
  | I | O | T | S | Z | J | L
deriving DecidableEq, Repr

/-- Position from types.ts: { x, y }. -/
structure Position where
  x : Int
  y : Int
deriving DecidableEq, Repr

/-- Cell from types.ts: null | PieceType. -/
abbrev Cell := Option PieceType

/-- Piece from types.ts: type, position, rotation (0..3), shape. -/
structure Piece where
  type : PieceType
  position : Position
  rotation : Nat
  shape : List Position
deriving DecidableEq, Repr

/-- BOARD_WIDTH from types.ts. -/
def BOARD_WIDTH : Nat := 10

/-- BOARD_HEIGHT from types.ts. -/
def BOARD_HEIGHT : Nat := 20

/-- The grid field of the Board class: BOARD_HEIGHT rows of BOARD_WIDTH cells. -/
abbrev Grid := List (List Cell)

/-- A row of BOARD_WIDTH empty cells, as built by the Board constructor and clearRow. -/
def emptyRow : List Cell := List.replicate BOARD_WIDTH none

/-- The initial grid of the Board constructor / Board.clear. -/
def emptyGrid : Grid := List.replicate BOARD_HEIGHT emptyRow

/-- One block test of Board.hasCollision: wall test, then
`this.grid[y] && this.grid[y][x] !== null` (an undefined cell read inside a
truthy row is `undefined !== null`, hence blocking). -/
def blockCollides (g : Grid) (x y : Int) : Bool :=
  if x < 0 ∨ x ≥ (BOARD_WIDTH : Int) ∨ y < 0 ∨ y ≥ (BOARD_HEIGHT : Int) then true
  else
    match g.get? y.toNat with
    | none => false
    | some row =>
      match row.get? x.toNat with
      | none => true
      | some c => c.isSome

/-- Board.hasCollision: some block of the piece hits a wall or a filled cell. -/
def hasCollision (g : Grid) (p : Piece) : Bool :=
  p.shape.any fun block =>
    blockCollides g (p.position.x + block.x) (p.position.y + block.y)

/-- Board.setCell-style bounded write used by Board.placePiece. -/
def setCell (g : Grid) (x y : Int) (v : Cell) : Grid :=
  if 0 ≤ y ∧ y < (BOARD_HEIGHT : Int) ∧ 0 ≤ x ∧ x < (BOARD_WIDTH : Int) then
    g.modify (fun row => row.set x.toNat v) y.toNat
  else g

/-- Board.placePiece: write piece.type into every in-bounds block cell. -/
def placePiece (g : Grid) (p : Piece) : Grid :=
  p.shape.foldl
    (fun acc block =>
      setCell acc (p.position.x + block.x) (p.position.y + block.y) (some p.type))
    g

/-- The `row.every(cell => cell !== null)` test of Board.getFullRows. -/
def isFullRow (row : List Cell) : Bool := row.all fun c => c.isSome

/-- Board.getFullRows: indices y < BOARD_HEIGHT whose row is completely filled. -/
def getFullRows (g : Grid) : List Nat :=
  (List.range BOARD_HEIGHT).filter fun y =>
    match g.get? y with
    | some row => isFullRow row
    | none => false

/-- Board.clearRow: splice the row out and unshift an empty row at index 0. -/
def clearRow (g : Grid) (row : Nat) : Grid :=
  if row < BOARD_HEIGHT then emptyRow :: g.eraseIdx row else g

/-- Insert into a descending list, embedding the effect of
`[...rows].sort((a, b) => b - a)`. -/
def insertDesc (a : Nat) : List Nat → List Nat
  | [] => [a]
  | b :: rest => if b ≤ a then a :: b :: rest else b :: insertDesc a rest

/-- Descending sort used by Board.clearRows. -/
def sortDesc (l : List Nat) : List Nat := l.foldr insertDesc []

/-- Board.clearRows: sort descending, clear each row in turn, return the count. -/
def clearRows (g : Grid) (rows : List Nat) : Grid × Nat :=
  let sortedRows := sortDesc rows
  (sortedRows.foldl clearRow g, sortedRows.length)

/-- Board.clearFullRows: clear the currently full rows (the DOM line-clear
effect event is a side effect outside the model), returning the new grid and
the number of full rows found. -/
def clearFullRows (g : Grid) : Grid × Nat :=
  let fullRows := getFullRows g
  if fullRows.length > 0 then ((clearRows g fullRows).1, fullRows.length)
  else (g, fullRows.length)

/-- PIECE_SHAPES from pieces.ts (rotation-0 shapes, relative coordinates). -/
def PIECE_SHAPES : PieceType → List Position
  | .I => [⟨-1, 0⟩, ⟨0, 0⟩, ⟨1, 0⟩, ⟨2, 0⟩]
  | .O => [⟨0, 0⟩, ⟨1, 0⟩, ⟨0, 1⟩, ⟨1, 1⟩]
  | .T => [⟨-1, 0⟩, ⟨0, 0⟩, ⟨1, 0⟩, ⟨0, 1⟩]
  | .S => [⟨-1, 1⟩, ⟨0, 1⟩, ⟨0, 0⟩, ⟨1, 0⟩]
  | .Z => [⟨-1, 0⟩, ⟨0, 0⟩, ⟨0, 1⟩, ⟨1, 1⟩]
  | .J => [⟨-1, 0⟩, ⟨0, 0⟩, ⟨1, 0⟩, ⟨-1, 1⟩]
  | .L => [⟨-1, 0⟩, ⟨0, 0⟩, ⟨1, 0⟩, ⟨1, 1⟩]

/-- One step of the loop body of rotatePosition: [x, y] = [-y, x]. -/
def rotStep (p : Position) : Position := ⟨-p.y, p.x⟩

/-- rotatePosition from pieces.ts: apply the 90° clockwise step `rotation` times. -/
def rotatePosition (pos : Position) : Nat → Position
  | 0 => pos
  | n + 1 => rotStep (rotatePosition pos n)

/-- getPieceShape from pieces.ts. -/
def getPieceShape (type : PieceType) (rotation : Nat) : List Position :=
  (PIECE_SHAPES type).map fun pos => rotatePosition pos rotation

/-- createPiece from pieces.ts, at the default spawn position x = 4, y = 0
(the only way the Game class calls it). -/
def createPiece (type : PieceType) : Piece :=
  { type := type, position := ⟨4, 0⟩, rotation := 0, shape := getPieceShape type 0 }

/-- SRS_KICKS entries for the I piece, keyed by (fromRotation, toRotation). -/
def srsKicksI : Nat → Nat → Option (List (Int × Int))
  | 0, 1 => some [(0, 0), (-1, 0), (1, 0), (0, -1), (-1, -1)]
  | 1, 0 => some [(0, 0), (1, 0), (-1, 0), (0, 1), (1, 1)]
  | 1, 2 => some [(0, 0), (1, 0), (0, 1), (-1, 0), (1, 1)]
  | 2, 1 => some [(0, 0), (-1, 0), (0, -1), (1, 0), (-1, -1)]
  | 2, 3 => some [(0, 0), (1, 0), (-1, 0), (0, 1), (1, 1)]
  | 3, 2 => some [(0, 0), (-1, 0), (1, 0), (0, -1), (-1, -1)]
  | 3, 0 => some [(0, 0), (0, 1), (0, -1), (-1, 0), (0, -2)]
  | 0, 3 => some [(0, 0), (0, -1), (0, 1), (1, 0), (0, 2)]
  | _, _ => none

/-- SRS_KICKS entries for the J, L, S, T, Z pieces. -/
def srsKicksJLSTZ : Nat → Nat → Option (List (Int × Int))
  | 0, 1 => some [(0, 0), (-1, 0), (-1, 1), (0, -2), (-1, -2)]
  | 1, 0 => some [(0, 0), (1, 0), (1, -1), (0, 2), (1, 2)]
  | 1, 2 => some [(0, 0), (1, 0), (1, -1), (0, 2), (1, 2)]
  | 2, 1 => some [(0, 0), (-1, 0), (-1, 1), (0, -2), (-1, -2)]
  | 2, 3 => some [(0, 0), (1, 0), (1, 1), (0, -2), (1, -2)]
  | 3, 2 => some [(0, 0), (-1, 0), (-1, -1), (0, 2), (-1, 2)]
  | 3, 0 => some [(0, 0), (-1, 0), (-1, 1), (0, -2), (-1, -2)]
  | 0, 3 => some [(0, 0), (1, 0), (1, -1), (0, 2), (1, 2)]
  | _, _ => none

/-- The target rotation computed in rotatePiece:
(rotation + 1) % 4 clockwise, (rotation + 3) % 4 counter-clockwise. -/
def newRotationOf (p : Piece) (clockwise : Bool) : Nat :=
  if clockwise then (p.rotation + 1) % 4 else (p.rotation + 3) % 4

/-- The SRS_KICKS lookup of rotatePiece, keyed by piece class (I vs JLSTZ)
and the fromRotation→toRotation pair. -/
def kickTable (p : Piece) (clockwise : Bool) : Option (List (Int × Int)) :=
  if p.type = PieceType.I then srsKicksI p.rotation (newRotationOf p clockwise)
  else srsKicksJLSTZ p.rotation (newRotationOf p clockwise)

/-- The testPiece built for one kick inside the rotatePiece loop. -/
def applyKick (p : Piece) (newRotation : Nat) (kick : Int × Int) : Piece :=
  { p with
      rotation := newRotation,
      position := ⟨p.position.x + kick.1, p.position.y + kick.2⟩,
      shape := getPieceShape p.type newRotation }

/-- The `for (const kick of kicks)` loop of rotatePiece: first non-colliding
test piece wins. -/
def tryKicks (g : Grid) (p : Piece) (newRotation : Nat) : List (Int × Int) → Option Piece
  | [] => none
  | kick :: rest =>
    let testPiece := applyKick p newRotation kick
    if hasCollision g testPiece then tryKicks g p newRotation rest
    else some testPiece

/-- rotatePiece from pieces.ts: O is returned unchanged; otherwise the SRS
kick candidates are tried in list order. -/
def rotatePiece (p : Piece) (g : Grid) (clockwise : Bool) : Option Piece :=
  if p.type = PieceType.O then some p
  else
    match kickTable p clockwise with
    | none => none
    | some kicks => tryKicks g p (newRotationOf p clockwise) kicks

/-- ScoreSystem state from score.ts. -/
structure ScoreSys where
  score : Nat
  level : Nat
  lines : Nat
  softDropPoints : Nat
  hardDropPoints : Nat
deriving DecidableEq, Repr

/-- The freshly constructed (or reset) ScoreSystem. -/
def ScoreSys.init : ScoreSys :=
  { score := 0, level := 1, lines := 0, softDropPoints := 0, hardDropPoints := 0 }

/-- MAX_SCORE from ScoreSystem.addLines. -/
def MAX_SCORE : Nat := 999999

/-- The baseScore switch of ScoreSystem.addLines. -/
def baseScoreFor : Nat → Nat
  | 1 => 100
  | 2 => 300
  | 3 => 500
  | 4 => 800
  | _ => 0

/-- ScoreSystem.addLines: update lines, level, then score, clamped at MAX_SCORE. -/
def ScoreSys.addLines (s : ScoreSys) (linesCleared : Nat) : ScoreSys :=
  let lines' := s.lines + linesCleared
  let newLevel := lines' / 10 + 1
  let level' := if newLevel > s.level then newLevel else s.level
  let scoreIncrease := baseScoreFor linesCleared * level'
  { s with
      lines := lines',
      level := level',
      score := min (s.score + scoreIncrease) MAX_SCORE }

/-- ScoreSystem.addSoftDrop: 1 point per block, no clamp. -/
def ScoreSys.addSoftDrop (s : ScoreSys) (blocks : Nat) : ScoreSys :=
  { s with
      softDropPoints := s.softDropPoints + blocks,
      score := s.score + blocks }

/-- ScoreSystem.addHardDrop: 2 points per block, no clamp. -/
def ScoreSys.addHardDrop (s : ScoreSys) (blocks : Nat) : ScoreSys :=
  { s with
      hardDropPoints := s.hardDropPoints + blocks,
      score := s.score + blocks * 2 }

/-- ScoreSystem.getDropInterval, in milliseconds (level is at least 1 in
every reachable state, so the Int subtraction matches the JS arithmetic). -/
def ScoreSys.getDropInterval (s : ScoreSys) : Int :=
  if s.level ≥ 20 then 50
  else if s.level ≥ 10 then 100
  else max 100 (1000 - ((s.level : Int) - 1) * 100)

/-- Decimal digit character, embedding the digits of JS String(n). -/
def decChar (n : Nat) : Char := Char.ofNat (48 + n)

/-- Digit recursion for decRepr, structurally bounded by a fuel that always
dominates the digit count (each step divides n by 10, which strictly
decreases it, so fuel n + 1 never runs out). -/
def decReprAux : Nat → Nat → List Char
  | 0, _ => []
  | fuel + 1, n =>
    if n < 10 then [decChar n]
    else decReprAux fuel (n / 10) ++ [decChar (n % 10)]

/-- Decimal representation of a Nat as a character list, embedding JS String(n). -/
def decRepr (n : Nat) : List Char := decReprAux (n + 1) n

/-- padStart from JS strings: left-pad with `c` up to the given width. -/
def padStart (width : Nat) (c : Char) (s : List Char) : List Char :=
  List.replicate (width - s.length) c ++ s

/-- ScoreSystem.formatScore: String(this.score).padStart(6, '0'). -/
def ScoreSys.formatScore (s : ScoreSys) : List Char := padStart 6 '0' (decRepr s.score)

/-- ScoreSystem.formatLevel: String(this.level).padStart(2, '0'). -/
def ScoreSys.formatLevel (s : ScoreSys) : List Char := padStart 2 '0' (decRepr s.level)

/-- ScoreSystem.formatLines: String(this.lines).padStart(3, '0'). -/
def ScoreSys.formatLines (s : ScoreSys) : List Char := padStart 3 '0' (decRepr s.lines)

/-- GameState from types.ts. -/
inductive GameState
  | MENU | PLAYING | PAUSED | GAME_OVER
deriving DecidableEq, Repr

/-- The Game class state (game.ts). Millisecond amounts are embedded as Int.
The BagSystem's random stream is embedded as the infinite supply
`pieceQueue` read at `queueIndex`. -/
structure Game where
  board : Grid
  scoreSystem : ScoreSys
  pieceQueue : Nat → PieceType
  queueIndex : Nat
  currentPiece : Option Piece
  nextPieceType : PieceType
  holdPieceType : Option PieceType
  canHold : Bool
  state : GameState
  dropTimer : Int
  lockDelay : Int
  lastDropPosition : Option Position

/-- lockDelayTime field of the Game class (500 ms). -/
def lockDelayTime : Int := 500

/-- BagSystem.getNext as seen by the Game: read the supply and advance. -/
def bagNext (g : Game) : PieceType × Game :=
  (g.pieceQueue g.queueIndex, { g with queueIndex := g.queueIndex + 1 })

/-- Game.resetLockDelay. -/
def resetLockDelay (g : Game) : Game :=
  { g with
      lockDelay := 0,
      lastDropPosition := g.currentPiece.map fun p => p.position }

/-- Game.spawnPiece: promote nextPieceType, draw a new next piece, reset
canHold / lockDelay / lastDropPosition, and flag game over if the fresh
piece already collides. -/
def spawnPiece (g : Game) : Game :=
  let pieceType := g.nextPieceType
  let drawn := bagNext g
  let piece := createPiece pieceType
  let g2 : Game :=
    { drawn.2 with
        nextPieceType := drawn.1,
        currentPiece := some piece,
        canHold := true,
        lockDelay := 0,
        lastDropPosition := none }
  if hasCollision g2.board piece then { g2 with state := GameState.GAME_OVER } else g2

/-- Translate a piece, keeping everything but its position. -/
def movePieceBy (p : Piece) (dx dy : Int) : Piece :=
  { p with position := ⟨p.position.x + dx, p.position.y + dy⟩ }

/-- Game.moveLeft. -/
def moveLeft (g : Game) : Bool × Game :=
  match g.currentPiece with
  | none => (false, g)
  | some p =>
    if g.state ≠ GameState.PLAYING then (false, g)
    else
      let newPiece := movePieceBy p (-1) 0
      if hasCollision g.board newPiece then (false, g)
      else (true, resetLockDelay { g with currentPiece := some newPiece })

/-- Game.moveRight. -/
def moveRight (g : Game) : Bool × Game :=
  match g.currentPiece with
  | none => (false, g)
  | some p =>
    if g.state ≠ GameState.PLAYING then (false, g)
    else
      let newPiece := movePieceBy p 1 0
      if hasCollision g.board newPiece then (false, g)
      else (true, resetLockDelay { g with currentPiece := some newPiece })

/-- Game.lockPiece: place the piece, clear full rows, score them, respawn. -/
def lockPiece (g : Game) : Game :=
  match g.currentPiece with
  | none => g
  | some p =>
    let placed := placePiece g.board p
    let cleared := clearFullRows placed
    let s := if cleared.2 > 0 then g.scoreSystem.addLines cleared.2 else g.scoreSystem
    spawnPiece { g with board := cleared.1, scoreSystem := s }

/-- Game.softDrop: move one row down scoring 1 point, or lock on contact. -/
def softDrop (g : Game) : Bool × Game :=
  match g.currentPiece with
  | none => (false, g)
  | some p =>
    if g.state ≠ GameState.PLAYING then (false, g)
    else
      let newPiece := movePieceBy p 0 1
      if hasCollision g.board newPiece then (false, lockPiece g)
      else
        (true,
          resetLockDelay
            { g with
                currentPiece := some newPiece,
                scoreSystem := g.scoreSystem.addSoftDrop 1 })

/-- The `while (!hasCollision(testPiece))` loop of Game.hardDrop, counting
how often the test piece moved down before colliding. The source loop has no
fuel; it exits within the grid height for every non-colliding piece with a
nonempty shape, so any fuel of at least BOARD_HEIGHT + 2 computes its value. -/
def dropDistanceAux (g : Grid) : Nat → Piece → Nat
  | 0, _ => 0
  | fuel + 1, p =>
    if hasCollision g p then 0
    else dropDistanceAux g fuel (movePieceBy p 0 1) + 1

/-- Fuel used for the hard-drop loop. -/
def dropFuel : Nat := BOARD_HEIGHT + 2

/-- Game.hardDrop: descend to the last free row, add 2 points per row
travelled, and lock immediately. -/
def hardDrop (g : Game) : Game :=
  match g.currentPiece with
  | none => g
  | some p =>
    if g.state ≠ GameState.PLAYING then g
    else
      let dropDistance := dropDistanceAux g.board dropFuel p
      if dropDistance > 0 then
        lockPiece
          { g with
              currentPiece := some (movePieceBy p 0 ((dropDistance : Int) - 1)),
              scoreSystem := g.scoreSystem.addHardDrop (dropDistance - 1) }
      else g

/-- Game.rotateClockwise. -/
def rotateClockwise (g : Game) : Bool × Game :=
  match g.currentPiece with
  | none => (false, g)
  | some p =>
    if g.state ≠ GameState.PLAYING then (false, g)
    else
      match rotatePiece p g.board true with
      | some rotated => (true, resetLockDelay { g with currentPiece := some rotated })
      | none => (false, g)

/-- Game.rotateCounterClockwise. -/
def rotateCounterClockwise (g : Game) : Bool × Game :=
  match g.currentPiece with
  | none => (false, g)
  | some p =>
    if g.state ≠ GameState.PLAYING then (false, g)
    else
      match rotatePiece p g.board false with
      | some rotated => (true, resetLockDelay { g with currentPiece := some rotated })
      | none => (false, g)

/-- Game.hold: stash the current piece, spawning (empty slot) or swapping in
the held piece at the spawn position (occupied slot, no collision check). -/
def hold (g : Game) : Bool × Game :=
  match g.currentPiece with
  | none => (false, g)
  | some p =>
    if g.state ≠ GameState.PLAYING ∨ g.canHold = false then (false, g)
    else
      match g.holdPieceType with
      | none =>
        let g1 := spawnPiece { g with holdPieceType := some p.type }
        (true, { g1 with canHold := false })
      | some t =>
        let g1 : Game :=
          { g with
              holdPieceType := some p.type,
              currentPiece := some (createPiece t),
              canHold := false }
        (true, { g1 with canHold := false })

/-- The automatic-fall tail of Game.update: accumulate the drop timer and
run one softDrop when it reaches the drop interval. -/
def gravityStep (g : Game) (preciseDeltaTime : Int) : Game :=
  let dropTimer' := g.dropTimer + preciseDeltaTime
  if dropTimer' ≥ g.scoreSystem.getDropInterval then (softDrop { g with dropTimer := 0 }).2
  else { g with dropTimer := dropTimer' }

/-- Game.update(deltaTime): ignore overly large deltas, cap the effective
delta at 100 ms, run the lock-delay check (locking ends the tick), then the
automatic fall. -/
def update (g : Game) (deltaTime : Int) : Game :=
  match g.currentPiece with
  | none => g
  | some p =>
    if g.state ≠ GameState.PLAYING then g
    else if deltaTime > 1000 then g
    else
      let preciseDeltaTime := min deltaTime 100
      match g.lastDropPosition with
      | some pos =>
        if p.position = pos then
          let lockDelay' := g.lockDelay + preciseDeltaTime
          if lockDelay' ≥ lockDelayTime then lockPiece { g with lockDelay := lockDelay' }
          else gravityStep { g with lockDelay := lockDelay' } preciseDeltaTime
        else gravityStep (resetLockDelay g) preciseDeltaTime
      | none => gravityStep (resetLockDelay g) preciseDeltaTime

/-- Safety of the active piece: no collision. Outside PLAYING, or with no
active piece, the property is vacuous. -/
def pieceOk (b : Grid) : Option Piece → Bool
  | none => true
  | some p => !hasCollision b p

/-- The C2 invariant: while PLAYING, the active piece overlaps no filled
cell and stays inside the grid (Board.hasCollision covers both). -/
def PieceSafe (g : Game) : Prop :=
  g.state = GameState.PLAYING → pieceOk g.board g.currentPiece = true

/-- Moving a piece by n rows downward, in one step. -/
def iterDown (p : Piece) (n : Nat) : Piece := movePieceBy p 0 (n : Int)

/-! Helper lemmas. -/

theorem decReprAux_length_pos : ∀ fuel n : Nat, n < fuel → 0 < (decReprAux fuel n).length := by
  intro fuel
  induction fuel with
  | zero => intro n h; omega
  | succ f ih =>
    intro n _
    unfold decReprAux
    split
    · simp
    · simp

theorem decRepr_length_pos (n : Nat) : 0 < (decRepr n).length :=
  decReprAux_length_pos (n + 1) n (Nat.lt_succ_self n)

theorem decReprAux_length_le :
    ∀ fuel k n : Nat, n < fuel → 0 < k → n < 10 ^ k → (decReprAux fuel n).length ≤ k := by
  intro fuel
  induction fuel with
  | zero => intro k n h; omega
  | succ f ih =>
    intro k n hnf hk hn
    unfold decReprAux
    split
    · simpa using hk
    · rename_i h10
      push_neg at h10
      obtain ⟨j, rfl⟩ : ∃ j, k = j + 1 := ⟨k - 1, by omega⟩
      have hj : 0 < j := by
        rcases Nat.eq_zero_or_pos j with hj0 | hj0
        · subst hj0; simp at hn; omega
        · exact hj0
      have hdiv : n / 10 < 10 ^ j := by
        rw [Nat.div_lt_iff_lt_mul (by norm_num : 0 < 10)]
        calc n < 10 ^ (j + 1) := hn
          _ = 10 ^ j * 10 := by ring
      have hdivf : n / 10 < f := by
        have h1 : n / 10 < n := Nat.div_lt_self (by omega) (by omega)
        omega
      have hlen := ih j (n / 10) hdivf hj hdiv
      simp only [List.length_append, List.length_cons, List.length_nil]
      omega

theorem decRepr_length_le (k n : Nat) (hk : 0 < k) (hn : n < 10 ^ k) :
    (decRepr n).length ≤ k :=
  decReprAux_length_le (n + 1) k n (Nat.lt_succ_self n) hk hn

theorem padStart_length (w : Nat) (c : Char) (s : List Char) :
    (padStart w c s).length = w - s.length + s.length := by
  simp [padStart]

theorem tryKicks_eq_none_iff (g : Grid) (p : Piece) (r : Nat) (ks : List (Int × Int)) :
    tryKicks g p r ks = none ↔ ∀ k ∈ ks, hasCollision g (applyKick p r k) = true := by
  induction ks with
  | nil => simp [tryKicks]
  | cons kick rest ih =>
    simp only [tryKicks]
    split
    · rename_i hcol
      simp only [List.mem_cons]
      constructor
      · intro hrest k hk
        rcases hk with hk | hk
        · subst hk; exact hcol
        · exact (ih.mp hrest) k hk
      · intro hall
        exact ih.mpr fun k hk => hall k (Or.inr hk)
    · rename_i hcol
      simp only [List.mem_cons]
      constructor
      · intro hsome; cases hsome
      · intro hall
        exact absurd (hall kick (Or.inl rfl)) (by simpa using hcol)

theorem tryKicks_eq_some (g : Grid) (p : Piece) (r : Nat) :
    ∀ ks q, tryKicks g p r ks = some q →
      ∃ pre k suf, ks = pre ++ k :: suf ∧
        (∀ k' ∈ pre, hasCollision g (applyKick p r k') = true) ∧
        hasCollision g (applyKick p r k) = false ∧
        q = applyKick p r k := by
  intro ks
  induction ks with
  | nil => intro q hq; cases hq
  | cons kick rest ih =>
    intro q hq
    simp only [tryKicks] at hq
    split at hq
    · rename_i hcol
      obtain ⟨pre, k, suf, hks, hpre, hk, hq⟩ := ih q hq
      exact ⟨kick :: pre, k, suf, by simp [hks],
        fun k' hk' => by
          rcases List.mem_cons.mp hk' with h | h
          · subst h; exact hcol
          · exact hpre k' h,
        hk, hq⟩
    · rename_i hcol
      cases hq
      exact ⟨[], kick, rest, rfl, by simp, by simpa using hcol, rfl⟩

theorem rotatePiece_ne_collision (p : Piece) (g : Grid) (cw : Bool) (q : Piece)
    (hq : rotatePiece p g cw = some q) (hp : hasCollision g p = false) :
    hasCollision g q = false := by
  unfold rotatePiece at hq
  split at hq
  · cases hq; exact hp
  · cases hkt : kickTable p cw with
    | none => rw [hkt] at hq; cases hq
    | some ks =>
      rw [hkt] at hq
      obtain ⟨_, _, _, _, _, hk, hqe⟩ := tryKicks_eq_some g p _ ks q hq
      rw [hqe]; exact hk

theorem iterDown_zero (p : Piece) : iterDown p 0 = p := by
  cases p with
  | mk t pos r s => cases pos; simp [iterDown, movePieceBy]

theorem iterDown_shift (p : Piece) (n : Nat) :
    iterDown (movePieceBy p 0 1) n = iterDown p (n + 1) := by
  cases p with
  | mk t pos r s =>
    cases pos
    simp [iterDown, movePieceBy]
    ring

theorem dropDistanceAux_eq (g : Grid) :
    ∀ fuel (p : Piece) (n : Nat), n < fuel →
      hasCollision g (iterDown p n) = true →
      (∀ j, j < n → hasCollision g (iterDown p j) = false) →
      dropDistanceAux g fuel p = n := by
  intro fuel
  induction fuel with
  | zero => intro p n h; omega
  | succ fuel ih =>
    intro p n hn hcol hbelow
    simp only [dropDistanceAux]
    split
    · rename_i hc0
      rcases Nat.eq_zero_or_pos n with h0 | h0
      · exact h0.symm
      · have := hbelow 0 h0
        rw [iterDown_zero] at this
        rw [this] at hc0
        cases hc0
    · rename_i hc0
      rcases Nat.eq_zero_or_pos n with h0 | h0
      · subst h0
        rw [iterDown_zero] at hcol
        exact absurd hcol (by simpa using hc0)
      · obtain ⟨m, rfl⟩ : ∃ m, n = m + 1 := ⟨n - 1, by omega⟩
        have heq : dropDistanceAux g fuel (movePieceBy p 0 1) = m := by
          apply ih
          · omega
          · rw [iterDown_shift]; exact hcol
          · intro j hj
            rw [iterDown_shift]
            exact hbelow (j + 1) (by omega)
        omega

theorem hasCollision_iterDown_height (g : Grid) (p : Piece)
    (hne : p.shape ≠ []) (hp : hasCollision g p = false) :
    hasCollision g (iterDown p BOARD_HEIGHT) = true := by
  obtain ⟨b0, hb0⟩ := List.exists_mem_of_ne_nil p.shape hne
  have hall : ∀ b ∈ p.shape,
      blockCollides g (p.position.x + b.x) (p.position.y + b.y) = false := by
    intro b hb
    have := List.any_eq_false.mp (by simpa [hasCollision] using hp)
    simpa using this b hb
  have hb := hall b0 hb0
  have hybound : 0 ≤ p.position.y + b0.y ∧ p.position.y + b0.y < (BOARD_HEIGHT : Int) := by
    unfold blockCollides at hb
    split at hb
    · cases hb
    · rename_i hcond
      push_neg at hcond
      exact ⟨hcond.2.2.1, hcond.2.2.2⟩
  apply List.any_eq_true.mpr
  refine ⟨b0, hb0, ?_⟩
  unfold iterDown movePieceBy blockCollides
  simp only
  rw [if_pos]
  right; right; right
  have : (BOARD_HEIGHT : Int) ≤ p.position.y + (BOARD_HEIGHT : Nat) + b0.y := by
    have := hybound.1
    omega
  simpa using this

theorem dropDistanceAux_exact (g : Grid) (p : Piece)
    (hne : p.shape ≠ []) (hp : hasCollision g p = false) :
    ∃ N, 0 < N ∧ N ≤ BOARD_HEIGHT ∧
      dropDistanceAux g dropFuel p = N ∧
      hasCollision g (iterDown p N) = true ∧
      ∀ j, j < N → hasCollision g (iterDown p j) = false := by
  have h20 : hasCollision g (iterDown p BOARD_HEIGHT) = true :=
    hasCollision_iterDown_height g p hne hp
  have hex : ∃ n, hasCollision g (iterDown p n) = true := ⟨BOARD_HEIGHT, h20⟩
  let N := Nat.find hex
  have hNcol : hasCollision g (iterDown p N) = true := Nat.find_spec hex
  have hNmin : ∀ j, j < N → hasCollision g (iterDown p j) = false := by
    intro j hj
    have := Nat.find_min hex hj
    simpa using this
  have hNle : N ≤ BOARD_HEIGHT := Nat.find_le h20
  have hNpos : 0 < N := by
    rcases Nat.eq_zero_or_pos N with h0 | h0
    · rw [h0, iterDown_zero] at hNcol
      rw [hNcol] at hp
      cases hp
    · exact h0
  exact ⟨N, hNpos, hNle,
    dropDistanceAux_eq g dropFuel p N (by unfold dropFuel; omega) hNcol hNmin,
    hNcol, hNmin⟩

theorem pieceSafe_spawnPiece (g : Game) : PieceSafe (spawnPiece g) := by
  unfold PieceSafe spawnPiece bagNext
  simp only
  split
  · intro hst
    simp at hst
  · rename_i hcol
    intro _
    simp only [pieceOk, Bool.not_eq_true']
    simpa using hcol

theorem pieceSafe_lockPiece (g : Game) : PieceSafe (lockPiece g) := by
  unfold lockPiece
  cases hcp : g.currentPiece with
  | none =>
    intro _
    simp [pieceOk, hcp]
  | some p => exact pieceSafe_spawnPiece _

theorem pieceSafe_of_eq_fields (g g' : Game)
    (hb : g'.board = g.board) (hs : g'.state = g.state)
    (hc : g'.currentPiece = g.currentPiece) (h : PieceSafe g) : PieceSafe g' := by
  intro hst
  rw [hb, hc]
  exact h (hs ▸ hst)

theorem pieceSafe_moveLeft (g : Game) (h : PieceSafe g) : PieceSafe (moveLeft g).2 := by
  unfold moveLeft
  cases hcp : g.currentPiece with
  | none => exact h
  | some p =>
    dsimp only
    by_cases hst : g.state ≠ GameState.PLAYING
    · rw [if_pos hst]; exact h
    · rw [if_neg hst]
      by_cases hcol : hasCollision g.board (movePieceBy p (-1) 0) = true
      · rw [if_pos hcol]; exact h
      · rw [if_neg hcol]
        intro _
        simp only [resetLockDelay, pieceOk, Bool.not_eq_true']
        simpa using hcol

theorem pieceSafe_moveRight (g : Game) (h : PieceSafe g) : PieceSafe (moveRight g).2 := by
  unfold moveRight
  cases hcp : g.currentPiece with
  | none => exact h
  | some p =>
    dsimp only
    by_cases hst : g.state ≠ GameState.PLAYING
    · rw [if_pos hst]; exact h
    · rw [if_neg hst]
      by_cases hcol : hasCollision g.board (movePieceBy p 1 0) = true
      · rw [if_pos hcol]; exact h
      · rw [if_neg hcol]
        intro _
        simp only [resetLockDelay, pieceOk, Bool.not_eq_true']
        simpa using hcol

theorem pieceSafe_softDrop (g : Game) (h : PieceSafe g) : PieceSafe (softDrop g).2 := by
  unfold softDrop
  cases hcp : g.currentPiece with
  | none => exact h
  | some p =>
    dsimp only
    by_cases hst : g.state ≠ GameState.PLAYING
    · rw [if_pos hst]; exact h
    · rw [if_neg hst]
      by_cases hcol : hasCollision g.board (movePieceBy p 0 1) = true
      · rw [if_pos hcol]; exact pieceSafe_lockPiece g
      · rw [if_neg hcol]
        intro _
        simp only [resetLockDelay, pieceOk, Bool.not_eq_true']
        simpa using hcol

theorem pieceSafe_hardDrop (g : Game) (h : PieceSafe g) : PieceSafe (hardDrop g) := by
  unfold hardDrop
  cases hcp : g.currentPiece with
  | none => exact h
  | some p =>
    dsimp only
    by_cases hst : g.state ≠ GameState.PLAYING
    · rw [if_pos hst]; exact h
    · rw [if_neg hst]
      by_cases hdd : dropDistanceAux g.board dropFuel p > 0
      · rw [if_pos hdd]; exact pieceSafe_lockPiece _
      · rw [if_neg hdd]; exact h

theorem pieceSafe_rotateClockwise (g : Game) (h : PieceSafe g) :
    PieceSafe (rotateClockwise g).2 := by
  unfold rotateClockwise
  cases hcp : g.currentPiece with
  | none => exact h
  | some p =>
    dsimp only
    by_cases hst : g.state ≠ GameState.PLAYING
    · rw [if_pos hst]; exact h
    · rw [if_neg hst]
      cases hr : rotatePiece p g.board true with
      | none => exact h
      | some rotated =>
        intro _
        have hps : g.state = GameState.PLAYING := not_not.mp hst
        have hpcol : hasCollision g.board p = false := by
          have := h hps
          rw [hcp] at this
          simpa [pieceOk] using this
        have := rotatePiece_ne_collision p g.board true rotated hr hpcol
        simp only [resetLockDelay, pieceOk, Bool.not_eq_true']
        simpa using this

theorem pieceSafe_rotateCounterClockwise (g : Game) (h : PieceSafe g) :
    PieceSafe (rotateCounterClockwise g).2 := by
  unfold rotateCounterClockwise
  cases hcp : g.currentPiece with
  | none => exact h
  | some p =>
    dsimp only
    by_cases hst : g.state ≠ GameState.PLAYING
    · rw [if_pos hst]; exact h
    · rw [if_neg hst]
      cases hr : rotatePiece p g.board false with
      | none => exact h
      | some rotated =>
        intro _
        have hps : g.state = GameState.PLAYING := not_not.mp hst
        have hpcol : hasCollision g.board p = false := by
          have := h hps
          rw [hcp] at this
          simpa [pieceOk] using this
        have := rotatePiece_ne_collision p g.board false rotated hr hpcol
        simp only [resetLockDelay, pieceOk, Bool.not_eq_true']
        simpa using this

theorem pieceSafe_gravityStep (g : Game) (d : Int) (h : PieceSafe g) :
    PieceSafe (gravityStep g d) := by
  unfold gravityStep
  by_cases htr : g.dropTimer + d ≥ g.scoreSystem.getDropInterval
  · rw [if_pos htr]
    apply pieceSafe_softDrop
    exact pieceSafe_of_eq_fields g _ rfl rfl rfl h
  · rw [if_neg htr]
    exact pieceSafe_of_eq_fields g _ rfl rfl rfl h

theorem pieceSafe_resetLockDelay (g : Game) (h : PieceSafe g) :
    PieceSafe (resetLockDelay g) := by
  unfold resetLockDelay
  exact pieceSafe_of_eq_fields g _ rfl rfl rfl h

theorem pieceSafe_update (g : Game) (d : Int) (h : PieceSafe g) :
    PieceSafe (update g d) := by
  unfold update
  cases hcp : g.currentPiece with
  | none => exact h
  | some p =>
    dsimp only
    by_cases hst : g.state ≠ GameState.PLAYING
    · rw [if_pos hst]; exact h
    · rw [if_neg hst]
      by_cases hbig : d > 1000
      · rw [if_pos hbig]; exact h
      · rw [if_neg hbig]
        cases hld : g.lastDropPosition with
        | none => exact pieceSafe_gravityStep _ _ (pieceSafe_resetLockDelay g h)
        | some pos =>
          dsimp only
          by_cases hpos : p.position = pos
          · rw [if_pos hpos]
            by_cases hlk : g.lockDelay + min d 100 ≥ lockDelayTime
            · rw [if_pos hlk]; exact pieceSafe_lockPiece _
            · rw [if_neg hlk]
              exact pieceSafe_gravityStep _ _ (pieceSafe_of_eq_fields g _ rfl rfl hcp.symm h)
          · rw [if_neg hpos]
            exact pieceSafe_gravityStep _ _ (pieceSafe_resetLockDelay g h)

theorem pieceSafe_hold_empty (g : Game) (h : PieceSafe g) (hslot : g.holdPieceType = none) :
    PieceSafe (hold g).2 := by
  unfold hold
  cases hcp : g.currentPiece with
  | none => exact h
  | some p =>
    dsimp only
    by_cases hguard : g.state ≠ GameState.PLAYING ∨ g.canHold = false
    · rw [if_pos hguard]; exact h
    · rw [if_neg hguard]
      rw [hslot]
      exact pieceSafe_spawnPiece _

/-! Concrete states used by the closed theorems. -/

/-- A completely filled row. -/
def fullRowI : List Cell := List.replicate BOARD_WIDTH (some PieceType.I)

/-- A row holding a single block at x = 0, used as an observable marker. -/
def markerRow : List Cell := some PieceType.T :: List.replicate 9 none

/-- A grid whose full rows are exactly 18 and 19, with a marker row at 17. -/
def bugGrid : Grid := List.replicate 17 emptyRow ++ [markerRow, fullRowI, fullRowI]

/-- A row with one filled cell at x = 4 (row index 1 of the hold board). -/
def spawnBlockRow : List Cell := (List.replicate BOARD_WIDTH (none : Cell)).set 4 (some PieceType.T)

/-- A board empty except for the cell (4, 1). -/
def holdBoard : Grid := emptyRow :: spawnBlockRow :: List.replicate 18 emptyRow

/-- A mid-game PLAYING state: empty board, fresh I piece at the spawn cell. -/
def playingGame : Game :=
  { board := emptyGrid, scoreSystem := ScoreSys.init,
    pieceQueue := fun _ => PieceType.I, queueIndex := 0,
    currentPiece := some (createPiece PieceType.I),
    nextPieceType := PieceType.I, holdPieceType := none, canHold := true,
    state := GameState.PLAYING, dropTimer := 0, lockDelay := 0,
    lastDropPosition := none }

/-- A PLAYING state with an O piece waiting in the hold slot and the cell
(4, 1) filled, the active I piece lying flat in row 0 away from conflict. -/
def holdSwapGame : Game :=
  { playingGame with board := holdBoard, holdPieceType := some PieceType.O }

/-- A PLAYING state whose gravity accumulator sits 50 ms before the
level-1 drop interval of 1000 ms. -/
def gravityGame : Game := { playingGame with dropTimer := 950 }

/-- A PLAYING state whose lock-delay comparison position matches the active
piece, so update accumulates the lock-delay timer. -/
def lockTickGame : Game :=
  { playingGame with lastDropPosition := some (createPiece PieceType.I).position }

/-! The claims. -/

/-- Claim C1, evaluated at the failing input: on a grid whose full rows are
exactly 18 and 19 (marker row at 17), clearFullRows deletes rows 19 and 17
instead of 19 and 18 — the interleaved unshift of clearRow shifts the
remaining indices up by one, so the descending-order deletion removes the
wrong second row.  The resulting grid still contains a full row (index 19),
and the marker row is gone, refuting "removes exactly the given rows" and
"the resulting grid contains no full row". -/
theorem C1_clearFullRows_leaves_full_row :
    getFullRows bugGrid = [18, 19] ∧
    (clearFullRows bugGrid).1 = List.replicate 19 emptyRow ++ [fullRowI] ∧
    getFullRows (clearFullRows bugGrid).1 = [19] ∧
    (clearFullRows bugGrid).1 ≠ List.replicate 19 emptyRow ++ [markerRow] := by
  decide

/-- Claim C2, counterexample: the swap branch of Game.hold installs the held
piece at the spawn position without any collision test.  From a state
satisfying the invariant (PLAYING, active piece collision-free), hold
succeeds, stays in PLAYING, and leaves the active O piece overlapping the
filled cell (4, 1). -/
theorem C2_hold_swap_breaks_invariant :
    holdSwapGame.state = GameState.PLAYING ∧
    pieceOk holdSwapGame.board holdSwapGame.currentPiece = true ∧
    (hold holdSwapGame).1 = true ∧
    (hold holdSwapGame).2.state = GameState.PLAYING ∧
    pieceOk (hold holdSwapGame).2.board (hold holdSwapGame).2.currentPiece = false ∧
    ¬ PieceSafe (hold holdSwapGame).2 := by
  refine ⟨by decide, by decide, by decide, by decide, by decide, ?_⟩
  intro hsafe
  have h1 : pieceOk (hold holdSwapGame).2.board (hold holdSwapGame).2.currentPiece = false := by
    decide
  have h2 := hsafe (by decide)
  rw [h1] at h2
  cases h2

/-- Claim C2, amended: while the state is PLAYING the active piece never
collides (neither overlap nor out-of-grid, per Board.hasCollision), and every
command except the occupied-slot branch of hold preserves this invariant;
the hold command preserves it whenever the hold slot is empty. -/
theorem C2_commands_preserve_invariant (g : Game) (h : PieceSafe g) :
    PieceSafe (moveLeft g).2 ∧ PieceSafe (moveRight g).2 ∧
    PieceSafe (softDrop g).2 ∧ PieceSafe (hardDrop g) ∧
    PieceSafe (rotateClockwise g).2 ∧ PieceSafe (rotateCounterClockwise g).2 ∧
    (∀ d : Int, PieceSafe (update g d)) ∧
    (g.holdPieceType = none → PieceSafe (hold g).2) :=
  ⟨pieceSafe_moveLeft g h, pieceSafe_moveRight g h, pieceSafe_softDrop g h,
   pieceSafe_hardDrop g h, pieceSafe_rotateClockwise g h,
   pieceSafe_rotateCounterClockwise g h, fun d => pieceSafe_update g d h,
   fun hslot => pieceSafe_hold_empty g h hslot⟩

/-- Witness for the amended C2 at a concrete PLAYING state. -/
theorem C2_commands_preserve_invariant_witness :
    PieceSafe playingGame ∧
    (PieceSafe (moveLeft playingGame).2 ∧ PieceSafe (moveRight playingGame).2 ∧
     PieceSafe (softDrop playingGame).2 ∧ PieceSafe (hardDrop playingGame) ∧
     PieceSafe (rotateClockwise playingGame).2 ∧
     PieceSafe (rotateCounterClockwise playingGame).2 ∧
     (∀ d : Int, PieceSafe (update playingGame d)) ∧
     (playingGame.holdPieceType = none → PieceSafe (hold playingGame).2)) :=
  ⟨fun _ => by decide, C2_commands_preserve_invariant playingGame (fun _ => by decide)⟩

/-- Claim C3, counterexample: once the gravity accumulator reaches the drop
interval, update calls softDrop, which adds 1 soft-drop point — the
automatic step does award points.  Here the score moves 0 → 1. -/
theorem C3_gravity_step_awards_point :
    gravityGame.scoreSystem.score = 0 ∧
    (update gravityGame 100).scoreSystem.score = 1 ∧
    (update gravityGame 100).scoreSystem.softDropPoints = 1 ∧
    (update gravityGame 100).currentPiece =
      some (movePieceBy (createPiece PieceType.I) 0 1) := by
  decide

/-- Claim C3, amended: an automatic gravity step performs a full player-style
soft drop — when the accumulated timer reaches the drop interval and the
piece can fall, update moves the active piece one row down AND adds 1
soft-drop point, exactly as a player-initiated soft drop would. -/
theorem C3_gravity_step_is_a_soft_drop (g : Game) (p : Piece) (d : Int)
    (hs : g.state = GameState.PLAYING) (hp : g.currentPiece = some p)
    (hd : d ≤ 1000)
    (hlock : ∀ pos, g.lastDropPosition = some pos → p.position = pos →
      g.lockDelay + min d 100 < lockDelayTime)
    (htrig : g.dropTimer + min d 100 ≥ g.scoreSystem.getDropInterval)
    (hmove : hasCollision g.board (movePieceBy p 0 1) = false) :
    (update g d).scoreSystem.score = g.scoreSystem.score + 1 ∧
    (update g d).scoreSystem.softDropPoints = g.scoreSystem.softDropPoints + 1 ∧
    (update g d).currentPiece = some (movePieceBy p 0 1) := by
  have key : ∀ g' : Game, g'.board = g.board → g'.currentPiece = some p →
      g'.scoreSystem = g.scoreSystem → g'.dropTimer = g.dropTimer →
      g'.state = g.state →
      (gravityStep g' (min d 100)).scoreSystem.score = g.scoreSystem.score + 1 ∧
      (gravityStep g' (min d 100)).scoreSystem.softDropPoints =
        g.scoreSystem.softDropPoints + 1 ∧
      (gravityStep g' (min d 100)).currentPiece = some (movePieceBy p 0 1) := by
    intro g' hb hc hsc hdt hstate
    unfold gravityStep
    dsimp only
    rw [hdt, hsc, if_pos htrig]
    unfold softDrop
    dsimp only
    rw [hc]
    dsimp only
    rw [hstate, if_neg (by simp [hs]), hb, if_neg (by simp [hmove])]
    exact ⟨rfl, rfl, rfl⟩
  unfold update
  rw [hp]
  dsimp only
  rw [if_neg (by simp [hs]), if_neg (by omega)]
  cases hld : g.lastDropPosition with
  | none =>
    dsimp only
    exact key (resetLockDelay g) rfl (by simp [resetLockDelay, hp]) rfl rfl rfl
  | some pos =>
    dsimp only
    by_cases hpos : p.position = pos
    · rw [if_pos hpos]
      rw [if_neg (not_le.mpr (hlock pos hld hpos))]
      exact key _ rfl (by simp [hp]) rfl rfl rfl
    · rw [if_neg hpos]
      exact key (resetLockDelay g) rfl (by simp [resetLockDelay, hp]) rfl rfl rfl

/-- Witness for the amended C3 at the concrete state gravityGame. -/
theorem C3_gravity_step_is_a_soft_drop_witness :
    (update gravityGame 100).scoreSystem.score = gravityGame.scoreSystem.score + 1 ∧
    (update gravityGame 100).scoreSystem.softDropPoints =
      gravityGame.scoreSystem.softDropPoints + 1 ∧
    (update gravityGame 100).currentPiece =
      some (movePieceBy (createPiece PieceType.I) 0 1) :=
  C3_gravity_step_is_a_soft_drop gravityGame (createPiece PieceType.I) 100
    rfl rfl (by decide)
    (fun pos hcontra _ => Option.noConfusion hcontra)
    (by decide) (by decide)

/-- Score state after one hundred level-scaled tetris awards: the addLines
clamp has pinned the score at MAX_SCORE. -/
def cappedScore : ScoreSys :=
  (List.range 100).foldl (fun s _ => s.addLines 4) ScoreSys.init

set_option maxRecDepth 10000 in
/-- Claim C4, counterexample: addSoftDrop has no ceiling — starting from a
score pinned at MAX_SCORE by addLines, one soft-drop point pushes the score
to 1000000 > 999999. -/
theorem C4_soft_drop_exceeds_ceiling :
    cappedScore.score = MAX_SCORE ∧
    (cappedScore.addSoftDrop 1).score = 1000000 ∧
    MAX_SCORE < (cappedScore.addSoftDrop 1).score ∧
    MAX_SCORE < (cappedScore.addHardDrop 1).score := by
  decide

/-- Claim C4, amended: only addLines saturates at MAX_SCORE; addSoftDrop and
addHardDrop add their points (1 per cell, 2 per cell) without any clamp, so
those operations can push the score beyond the ceiling. -/
theorem C4_only_addLines_saturates (s : ScoreSys) (n : Nat) :
    (s.addLines n).score ≤ MAX_SCORE ∧
    (s.addSoftDrop n).score = s.score + n ∧
    (s.addHardDrop n).score = s.score + n * 2 :=
  ⟨min_le_right _ _, rfl, rfl⟩

/-- Claim C5: for a non-O piece, rotation looks up the kick table entry keyed
by piece class (I vs JLSTZ) and fromRotation→toRotation, tries its (Δx, Δy)
candidates in list order, and accepts the first whose rotated test piece does
not collide; if every candidate collides the rotation fails, and the Game
commands then return failure leaving the session unchanged. -/
theorem C5_rotation_tries_kicks_in_order (p : Piece) (b : Grid) (cw : Bool)
    (hO : p.type ≠ PieceType.O) :
    (∀ ks, kickTable p cw = some ks →
      (rotatePiece p b cw = none →
        ∀ k ∈ ks, hasCollision b (applyKick p (newRotationOf p cw) k) = true) ∧
      (∀ q, rotatePiece p b cw = some q →
        ∃ pre k suf, ks = pre ++ k :: suf ∧
          (∀ k' ∈ pre, hasCollision b (applyKick p (newRotationOf p cw) k') = true) ∧
          hasCollision b (applyKick p (newRotationOf p cw) k) = false ∧
          q = applyKick p (newRotationOf p cw) k)) ∧
    (∀ gm : Game, gm.currentPiece = some p →
      (rotatePiece p gm.board true = none → rotateClockwise gm = (false, gm)) ∧
      (rotatePiece p gm.board false = none → rotateCounterClockwise gm = (false, gm))) := by
  constructor
  · intro ks hks
    have hrw : rotatePiece p b cw = tryKicks b p (newRotationOf p cw) ks := by
      unfold rotatePiece
      rw [if_neg hO, hks]
    constructor
    · intro hnone
      rw [hrw] at hnone
      exact (tryKicks_eq_none_iff b p _ ks).mp hnone
    · intro q hq
      rw [hrw] at hq
      exact tryKicks_eq_some b p _ ks q hq
  · intro gm hc
    constructor
    · intro hnone
      unfold rotateClockwise
      rw [hc]
      dsimp only
      by_cases hst : gm.state ≠ GameState.PLAYING
      · rw [if_pos hst]
      · rw [if_neg hst, hnone]
    · intro hnone
      unfold rotateCounterClockwise
      rw [hc]
      dsimp only
      by_cases hst : gm.state ≠ GameState.PLAYING
      · rw [if_pos hst]
      · rw [if_neg hst, hnone]

/-- Witness for C5 at a concrete T piece on the empty grid. -/
theorem C5_rotation_tries_kicks_in_order_witness :
    (createPiece PieceType.T).type ≠ PieceType.O ∧
    ((∀ ks, kickTable (createPiece PieceType.T) true = some ks →
      (rotatePiece (createPiece PieceType.T) emptyGrid true = none →
        ∀ k ∈ ks, hasCollision emptyGrid
          (applyKick (createPiece PieceType.T)
            (newRotationOf (createPiece PieceType.T) true) k) = true) ∧
      (∀ q, rotatePiece (createPiece PieceType.T) emptyGrid true = some q →
        ∃ pre k suf, ks = pre ++ k :: suf ∧
          (∀ k' ∈ pre, hasCollision emptyGrid
            (applyKick (createPiece PieceType.T)
              (newRotationOf (createPiece PieceType.T) true) k') = true) ∧
          hasCollision emptyGrid
            (applyKick (createPiece PieceType.T)
              (newRotationOf (createPiece PieceType.T) true) k) = false ∧
          q = applyKick (createPiece PieceType.T)
              (newRotationOf (createPiece PieceType.T) true) k)) ∧
     (∀ gm : Game, gm.currentPiece = some (createPiece PieceType.T) →
      (rotatePiece (createPiece PieceType.T) gm.board true = none →
        rotateClockwise gm = (false, gm)) ∧
      (rotatePiece (createPiece PieceType.T) gm.board false = none →
        rotateCounterClockwise gm = (false, gm)))) :=
  ⟨by decide,
   C5_rotation_tries_kicks_in_order (createPiece PieceType.T) emptyGrid true (by decide)⟩

/-- Claim C6: in PLAYING state with a collision-free active piece of
nonempty shape, hardDrop descends the piece to the last non-colliding row
(t rows down, with row t + 1 colliding), awards 2 points per row actually
travelled through addHardDrop t (a resting piece has t = 0), and locks in
the same call — the result is lockPiece of the settled state, ignoring the
lock-delay timer entirely. -/
theorem C6_hardDrop_descends_scores_locks (g : Game) (p : Piece)
    (hs : g.state = GameState.PLAYING) (hp : g.currentPiece = some p)
    (hne : p.shape ≠ []) (hcol : hasCollision g.board p = false) :
    ∃ t : Nat,
      (∀ j, j ≤ t → hasCollision g.board (iterDown p j) = false) ∧
      hasCollision g.board (iterDown p (t + 1)) = true ∧
      (g.scoreSystem.addHardDrop t).score = g.scoreSystem.score + 2 * t ∧
      hardDrop g =
        lockPiece
          { g with
              currentPiece := some (iterDown p t),
              scoreSystem := g.scoreSystem.addHardDrop t } := by
  obtain ⟨N, hNpos, hNle, hdd, hNcol, hNmin⟩ := dropDistanceAux_exact g.board p hne hcol
  refine ⟨N - 1, ?_, ?_, ?_, ?_⟩
  · intro j hj
    exact hNmin j (by omega)
  · have hsub : N - 1 + 1 = N := by omega
    rw [hsub]
    exact hNcol
  · have hdef : (g.scoreSystem.addHardDrop (N - 1)).score =
        g.scoreSystem.score + (N - 1) * 2 := rfl
    omega
  · unfold hardDrop
    rw [hp]
    dsimp only
    rw [if_neg (by simp [hs]), hdd, if_pos (by omega : N > 0)]
    have harg : ((N : Int) - 1) = ((N - 1 : Nat) : Int) := by omega
    rw [harg]
    rfl

/-- Witness for C6: the fresh I piece on the empty board. -/
theorem C6_hardDrop_descends_scores_locks_witness :
    ∃ t : Nat,
      (∀ j, j ≤ t →
        hasCollision playingGame.board (iterDown (createPiece PieceType.I) j) = false) ∧
      hasCollision playingGame.board (iterDown (createPiece PieceType.I) (t + 1)) = true ∧
      (playingGame.scoreSystem.addHardDrop t).score = playingGame.scoreSystem.score + 2 * t ∧
      hardDrop playingGame =
        lockPiece
          { playingGame with
              currentPiece := some (iterDown (createPiece PieceType.I) t),
              scoreSystem := playingGame.scoreSystem.addHardDrop t } :=
  C6_hardDrop_descends_scores_locks playingGame (createPiece PieceType.I)
    rfl rfl (by decide) (by decide)

/-- Claim C7: canHold is true after every spawn; a first hold in PLAYING
succeeds and leaves canHold false (spawnPiece resets it to true inside the
empty-slot branch, but the assignment after the branch forces it back to
false); any hold with canHold false — in particular a second hold with no
spawn between — returns failure and leaves the whole session unchanged. -/
theorem C7_canHold_exactly_once (g : Game) (p : Piece)
    (hs : g.state = GameState.PLAYING) (hp : g.currentPiece = some p)
    (hc : g.canHold = true) :
    (∀ g' : Game, (spawnPiece g').canHold = true) ∧
    (hold g).1 = true ∧
    (hold g).2.canHold = false ∧
    (∀ g' : Game, g'.canHold = false → hold g' = (false, g')) ∧
    hold (hold g).2 = (false, (hold g).2) := by
  have hguard : ¬ (g.state ≠ GameState.PLAYING ∨ g.canHold = false) := by
    simp [hs, hc]
  have hhold1 : (hold g).1 = true := by
    unfold hold
    rw [hp]
    dsimp only
    rw [if_neg hguard]
    cases hh : g.holdPieceType
    · rfl
    · rfl
  have hhold2 : (hold g).2.canHold = false := by
    unfold hold
    rw [hp]
    dsimp only
    rw [if_neg hguard]
    cases hh : g.holdPieceType
    · rfl
    · rfl
  have hfail : ∀ g' : Game, g'.canHold = false → hold g' = (false, g') := by
    intro g' hch
    unfold hold
    cases hcp : g'.currentPiece
    · rfl
    · dsimp only
      rw [if_pos (Or.inr hch)]
  refine ⟨?_, hhold1, hhold2, hfail, hfail _ hhold2⟩
  intro g'
  unfold spawnPiece bagNext
  dsimp only
  split
  · rfl
  · rfl

/-- Witness for C7 at a concrete PLAYING state with an empty hold slot. -/
theorem C7_canHold_exactly_once_witness :
    (∀ g' : Game, (spawnPiece g').canHold = true) ∧
    (hold playingGame).1 = true ∧
    (hold playingGame).2.canHold = false ∧
    (∀ g' : Game, g'.canHold = false → hold g' = (false, g')) ∧
    hold (hold playingGame).2 = (false, (hold playingGame).2) :=
  C7_canHold_exactly_once playingGame (createPiece PieceType.I) rfl rfl rfl

/-- Claim C8, counterexample: getPieceShape is NOT rotation-invariant for O —
rotation 1 maps the offsets through the 90° turn about the cell origin, so
the offset set changes (it gains (-1, 0)); the observed no-op behaviour comes
solely from the special case in rotatePiece. -/
theorem C8_O_shape_lookup_not_invariant :
    Position.mk (-1) 0 ∈ getPieceShape PieceType.O 1 ∧
    Position.mk (-1) 0 ∉ getPieceShape PieceType.O 0 ∧
    getPieceShape PieceType.O 1 ≠ getPieceShape PieceType.O 0 := by
  decide

/-- Claim C8, amended: rotatePiece special-cases the O piece and returns it
unchanged before any shape lookup, so rotateClockwise and
rotateCounterClockwise on an active O piece always succeed, keep the exact
same piece (position, rotation and shape), and only reset the lock delay;
the rotation invariance does NOT hold at the getPieceShape level. -/
theorem C8_O_rotation_is_noop (p : Piece) (b : Grid) (cw : Bool)
    (hO : p.type = PieceType.O) :
    rotatePiece p b cw = some p ∧
    (∀ g : Game, g.state = GameState.PLAYING → g.currentPiece = some p →
      rotateClockwise g = (true, resetLockDelay g) ∧
      rotateCounterClockwise g = (true, resetLockDelay g) ∧
      (resetLockDelay g).currentPiece = some p) := by
  have hrp : ∀ (b' : Grid) (cw' : Bool), rotatePiece p b' cw' = some p := by
    intro b' cw'
    unfold rotatePiece
    rw [if_pos hO]
  refine ⟨hrp b cw, ?_⟩
  intro g hs hc
  have hgg : ({ g with currentPiece := some p } : Game) = g := by
    rw [← hc]
  refine ⟨?_, ?_, by simp [resetLockDelay, hc]⟩
  · unfold rotateClockwise
    rw [hc]
    dsimp only
    rw [if_neg (by simp [hs]), hrp g.board true]
    dsimp only
    rw [hgg]
  · unfold rotateCounterClockwise
    rw [hc]
    dsimp only
    rw [if_neg (by simp [hs]), hrp g.board false]
    dsimp only
    rw [hgg]

/-- Witness for the amended C8 at a concrete O piece. -/
theorem C8_O_rotation_is_noop_witness :
    rotatePiece (createPiece PieceType.O) emptyGrid true = some (createPiece PieceType.O) ∧
    (∀ g : Game, g.state = GameState.PLAYING →
      g.currentPiece = some (createPiece PieceType.O) →
      rotateClockwise g = (true, resetLockDelay g) ∧
      rotateCounterClockwise g = (true, resetLockDelay g) ∧
      (resetLockDelay g).currentPiece = some (createPiece PieceType.O)) :=
  C8_O_rotation_is_noop (createPiece PieceType.O) emptyGrid true (by decide)

/-- Claim C9, counterexample: formatScore pads the score to width 6, not 8 —
the fresh system formats as "000000". -/
theorem C9_formatScore_width_is_six :
    ScoreSys.init.formatScore.length = 6 ∧
    ScoreSys.init.formatScore.length ≠ 8 ∧
    ScoreSys.init.formatScore = ['0', '0', '0', '0', '0', '0'] := by
  decide

/-- Claim C9, amended: the accessors return the decimal digits zero-padded
to minimum widths 6 (score), 2 (level) and 3 (lines); the width is exact
whenever the value fits (score ≤ 999999, level ≤ 99, lines ≤ 999 — padStart
never truncates, so larger values would widen the string). -/
theorem C9_formats_fixed_width (s : ScoreSys) :
    s.formatScore = padStart 6 '0' (decRepr s.score) ∧
    s.formatLevel = padStart 2 '0' (decRepr s.level) ∧
    s.formatLines = padStart 3 '0' (decRepr s.lines) ∧
    (s.score ≤ 999999 → s.formatScore.length = 6) ∧
    (s.level ≤ 99 → s.formatLevel.length = 2) ∧
    (s.lines ≤ 999 → s.formatLines.length = 3) := by
  refine ⟨rfl, rfl, rfl, ?_, ?_, ?_⟩
  · intro hv
    have hle : (decRepr s.score).length ≤ 6 :=
      decRepr_length_le 6 s.score (by norm_num)
        (by
          have hpow : (10 : Nat) ^ 6 = 1000000 := by norm_num
          omega)
    show (padStart 6 '0' (decRepr s.score)).length = 6
    rw [padStart_length]
    omega
  · intro hv
    have hle : (decRepr s.level).length ≤ 2 :=
      decRepr_length_le 2 s.level (by norm_num)
        (by
          have hpow : (10 : Nat) ^ 2 = 100 := by norm_num
          omega)
    show (padStart 2 '0' (decRepr s.level)).length = 2
    rw [padStart_length]
    omega
  · intro hv
    have hle : (decRepr s.lines).length ≤ 3 :=
      decRepr_length_le 3 s.lines (by norm_num)
        (by
          have hpow : (10 : Nat) ^ 3 = 1000 := by norm_num
          omega)
    show (padStart 3 '0' (decRepr s.lines)).length = 3
    rw [padStart_length]
    omega

/-- Witness for the amended C9 at the fresh score system. -/
theorem C9_formats_fixed_width_witness :
    ScoreSys.init.score ≤ 999999 ∧ ScoreSys.init.formatScore.length = 6 ∧
    ScoreSys.init.level ≤ 99 ∧ ScoreSys.init.formatLevel.length = 2 ∧
    ScoreSys.init.lines ≤ 999 ∧ ScoreSys.init.formatLines.length = 3 :=
  ⟨by decide, (C9_formats_fixed_width ScoreSys.init).2.2.2.1 (by decide),
   by decide, (C9_formats_fixed_width ScoreSys.init).2.2.2.2.1 (by decide),
   by decide, (C9_formats_fixed_width ScoreSys.init).2.2.2.2.2 (by decide)⟩

/-- Claim C10: update ignores deltas above 1000 ms entirely (the whole
session state is untouched), caps the effective delta of any accepted tick
at 100 ms (for 100 < delta ≤ 1000 the call behaves exactly like a 100 ms
tick), and in a non-triggering tick both the lock-delay and the gravity
accumulator advance by exactly 100 ms, not by delta. -/
theorem C10_update_caps_effective_delta (g : Game) (d : Int) :
    (d > 1000 → update g d = g) ∧
    (100 < d → d ≤ 1000 → update g d = update g 100) ∧
    (∀ p : Piece, 100 < d → d ≤ 1000 → g.state = GameState.PLAYING →
      g.currentPiece = some p → g.lastDropPosition = some p.position →
      g.lockDelay + 100 < lockDelayTime →
      g.dropTimer + 100 < g.scoreSystem.getDropInterval →
      (update g d).lockDelay = g.lockDelay + 100 ∧
      (update g d).dropTimer = g.dropTimer + 100) := by
  refine ⟨?_, ?_, ?_⟩
  · intro hbig
    unfold update
    cases hcp : g.currentPiece with
    | none => rfl
    | some p =>
      dsimp only
      by_cases hst : g.state ≠ GameState.PLAYING
      · rw [if_pos hst]
      · rw [if_neg hst, if_pos hbig]
  · intro h100 hle
    unfold update
    cases hcp : g.currentPiece with
    | none => rfl
    | some p =>
      dsimp only
      by_cases hst : g.state ≠ GameState.PLAYING
      · rw [if_pos hst, if_pos hst]
      · rw [if_neg hst, if_neg hst,
            if_neg (by omega : ¬ d > 1000),
            if_neg (by decide : ¬ (100 : Int) > 1000),
            min_eq_right (by omega : (100 : Int) ≤ d),
            (by decide : min (100 : Int) 100 = 100)]
  · intro p h100 hle hst hcp hld hlk htm
    unfold update
    rw [hcp]
    dsimp only
    rw [if_neg (by simp [hst]), if_neg (by omega : ¬ d > 1000), hld]
    dsimp only
    rw [if_pos rfl, min_eq_right (by omega : (100 : Int) ≤ d),
        if_neg (by omega : ¬ g.lockDelay + 100 ≥ lockDelayTime)]
    unfold gravityStep
    dsimp only
    rw [if_neg (by omega : ¬ g.dropTimer + 100 ≥ g.scoreSystem.getDropInterval)]
    exact ⟨rfl, rfl⟩

/-- Witness for C10 at a concrete lock-delay-accumulating state, with
deltas 1500 (ignored) and 500 (capped to 100). -/
theorem C10_update_caps_effective_delta_witness :
    update lockTickGame 1500 = lockTickGame ∧
    update lockTickGame 500 = update lockTickGame 100 ∧
    (update lockTickGame 500).lockDelay = lockTickGame.lockDelay + 100 ∧
    (update lockTickGame 500).dropTimer = lockTickGame.dropTimer + 100 :=
  ⟨(C10_update_caps_effective_delta lockTickGame 1500).1 (by decide),
   (C10_update_caps_effective_delta lockTickGame 500).2.1 (by decide) (by decide),
   ((C10_update_caps_effective_delta lockTickGame 500).2.2 (createPiece PieceType.I)
     (by decide) (by decide) rfl rfl rfl (by decide) (by decide)).1,
   ((C10_update_caps_effective_delta lockTickGame 500).2.2 (createPiece PieceType.I)
     (by decide) (by decide) rfl rfl rfl (by decide) (by decide)).2⟩

end Tetris

